import Mathlib

/-!
Shallow embedding of the activity bar part (activitybarPart.ts): the composite
lifecycle coordinator (lazy control pairs, placeholder reconciliation,
default-pin policy, persistence round trip) and the activity badge overlay
(routing of showActivity between live composites and global activities),
together with theorems checking the documented behaviour against the code.

External collaborators that the source only drives through an interface
(the CompositeBar widget, the viewlet service, the global activity actions)
are modelled from the specification of that interface; everything in the
ActivitybarPart itself is translated from the source.
-/

/-- Opaque icon handle (URI in the source). The serialized form of a URI is
modelled by the URI itself. -/
structure URI where
  val : String
deriving DecidableEq, Repr

/-- Modelled from the spec: URI.revive reconstructs a URI from its serialized
object form; on the opaque handle this is the identity. -/
def URI.revive (u : URI) : URI := u

/-- Source lines 33-36: a composite remembered from a previous session. -/
structure IPlaceholderComposite where
  id : String
  iconUrl : Option URI
deriving DecidableEq, Repr

/-- Descriptor of a registered viewlet (CompositeDescriptor in the spec). -/
structure ViewletDescriptor where
  id : String
  name : String
  order : Option Nat
  iconUrl : Option URI
deriving DecidableEq, Repr

/-- Badge payload; the content is opaque. -/
structure Badge where
  content : String
deriving DecidableEq, Repr

/-- Entry stored by the Composite Host; the fields of the object literals the
coordinator passes to addComposite (a ViewletDescriptor at line 236, the
literal with id, name and order at line 256; a field absent from the literal
is none). -/
structure CompositeEntry where
  id : String
  name : String
  order : Option Nat
  iconUrl : Option URI
deriving DecidableEq, Repr

def ViewletDescriptor.toEntry (v : ViewletDescriptor) : CompositeEntry :=
  ⟨v.id, v.name, v.order, v.iconUrl⟩

/-- Modelled from the spec: the Composite Host (CompositeBar widget, not under
src/). It tracks entries, the pinned ids, the activated ids and per-composite
badges, keyed by composite id. -/
structure CompositeBar where
  entries : List CompositeEntry
  pinned : List String
  activated : List String
  badges : List (String × Option Badge)
deriving DecidableEq, Repr

/-- Modelled from the spec: Host addEntry(descriptor), an idempotent upsert
keyed by id; a fresh id is appended at the end. -/
def CompositeBar.addComposite (bar : CompositeBar) (e : CompositeEntry) : CompositeBar :=
  if bar.entries.any (fun x => x.id == e.id) then bar
  else { bar with entries := bar.entries ++ [e] }

/-- Modelled from the spec: Host isPinned(id). -/
def CompositeBar.isPinned (bar : CompositeBar) (id : String) : Bool :=
  bar.pinned.any (fun x => x == id)

/-- Modelled from the spec: Host pin(id); a newly pinned id is appended. -/
def CompositeBar.pin (bar : CompositeBar) (id : String) : CompositeBar :=
  if bar.isPinned id then bar else { bar with pinned := bar.pinned ++ [id] }

/-- Modelled from the spec: Host activate(id). -/
def CompositeBar.activateComposite (bar : CompositeBar) (id : String) : CompositeBar :=
  if bar.activated.any (fun x => x == id) then bar
  else { bar with activated := bar.activated ++ [id] }

/-- Modelled from the spec: Host removeEntry(id) drops every trace of the id. -/
def CompositeBar.removeComposite (bar : CompositeBar) (id : String) : CompositeBar :=
  { entries := bar.entries.filter (fun x => !(x.id == id)),
    pinned := bar.pinned.filter (fun x => !(x == id)),
    activated := bar.activated.filter (fun x => !(x == id)),
    badges := bar.badges.filter (fun x => !(x.1 == id)) }

/-- Modelled from the spec: the per-composite badge primitive of the Host,
setBadge(id, badge); replaces any prior badge for the id. The clazz and
priority arguments are accepted as delegated but the Host records the badge. -/
def CompositeBar.showActivity (bar : CompositeBar) (id : String) (badge : Option Badge)
    (clazz : Option String) (priority : Option Nat) : CompositeBar :=
  { bar with badges := (bar.badges.filter (fun x => !(x.1 == id))) ++ [(id, badge)] }

/-- Modelled from the spec: the Registration Source (viewlet service). It
holds the currently registered viewlets and the id of the active viewlet. -/
structure ViewletService where
  viewlets : List ViewletDescriptor
  activeViewletId : Option String
deriving DecidableEq, Repr

/-- Modelled from the spec: getViewlet(id) returns the registered viewlet with
that id, if any. -/
def ViewletService.getViewlet (vs : ViewletService) (id : String) : Option ViewletDescriptor :=
  vs.viewlets.find? (fun v => v.id == id)

/-- A global activity action (line 53): the badge and clazz currently set on
it. -/
structure GlobalActivityAction where
  id : String
  badge : Option Badge
  clazz : Option String
deriving DecidableEq, Repr

/-- The control pair held in the compositeActions map (line 57): either built
from a live viewlet (ViewletActivityAction together with
ToggleCompositePinnedAction) or a placeholder pair
(PlaceHolderViewletActivityAction together with
PlaceHolderToggleCompositePinnedAction, lines 215-224). Both members of the
pair share the tag and the construction data, so the pair is modelled as one
tagged value. -/
inductive ControlPair where
  | live (viewlet : ViewletDescriptor)
  | placeholder (id : String) (iconUrl : Option URI)
deriving DecidableEq, Repr

/-- The state owned by ActivitybarPart (lines 53-57). -/
structure ActivitybarPart where
  placeholderComposites : List IPlaceholderComposite
  compositeActions : List (String × ControlPair)
  compositeBar : CompositeBar
  globalActivityIdToActions : List GlobalActivityAction
deriving DecidableEq, Repr

/-- Lookup in the compositeActions dictionary. -/
def lookupPair (s : ActivitybarPart) (id : String) : Option ControlPair :=
  (s.compositeActions.find? (fun e => e.1 == id)).map (fun e => e.2)

/-- Whether the compositeActions dictionary holds a pair for the id. -/
def hasPair (s : ActivitybarPart) (id : String) : Bool :=
  s.compositeActions.any (fun e => e.1 == id)

/-- Whether the Host holds an entry for the id. -/
def barHasId (bar : CompositeBar) (id : String) : Bool :=
  bar.entries.any (fun e => e.id == id)

/-- Failure of getCompositeActions for an id with neither a live viewlet nor a
recorded placeholder: the source dereferences the missing placeholder at line
222 and throws; the spec names this failure UnknownCompositeId. -/
inductive CoordError where
  | UnknownCompositeId
deriving DecidableEq, Repr

/-- Source lines 210-231: return the control pair for the id, creating it on
first access from the live viewlet if one is registered, else from the first
recorded placeholder with the id; with neither, the access fails. -/
def getCompositeActions (vs : ViewletService) (s : ActivitybarPart) (compositeId : String) :
    Except CoordError (ControlPair × ActivitybarPart) :=
  match lookupPair s compositeId with
  | some pair => .ok (pair, s)
  | none =>
    match vs.getViewlet compositeId with
    | some viewlet =>
      .ok (ControlPair.live viewlet,
        { s with compositeActions :=
            s.compositeActions ++ [(compositeId, ControlPair.live viewlet)] })
    | none =>
      match (s.placeholderComposites.filter (fun c => c.id == compositeId)).head? with
      | some placeHolderComposite =>
        .ok (ControlPair.placeholder compositeId placeHolderComposite.iconUrl,
          { s with compositeActions :=
              s.compositeActions ++
                [(compositeId, ControlPair.placeholder compositeId placeHolderComposite.iconUrl)] })
      | none => .error CoordError.UnknownCompositeId

/-- Modelled from the spec: setActivity on the placeholder actions
(activitybarActions.ts is not under src/) pushes the late-arriving descriptor
into the pair; per the design notes this rebuilds the Live variant. -/
def setActivity (viewlet : ViewletDescriptor) (pair : ControlPair) : ControlPair :=
  match pair with
  | .live v => .live v
  | .placeholder _ _ => .live viewlet

/-- Source lines 280-288: fetch (or create) the pair for a registered viewlet
and, when it is a placeholder pair, push the descriptor into it. The error
branch is unreachable because the caller passes a registered viewlet. -/
def enableCompositeActions (vs : ViewletService) (s : ActivitybarPart)
    (viewlet : ViewletDescriptor) : ActivitybarPart :=
  match getCompositeActions vs s viewlet.id with
  | .error _ => s
  | .ok (pair, s1) =>
    match pair with
    | .live _ => s1
    | .placeholder _ _ =>
      let updated := s1.compositeActions.map
        (fun e => if e.1 == viewlet.id then (e.1, setActivity viewlet (e.2)) else e)
      { s1 with compositeActions := updated }

/-- Source line 236: add the viewlet to the Host. -/
def pvAdd (s : ActivitybarPart) (viewlet : ViewletDescriptor) : ActivitybarPart :=
  { s with compositeBar := s.compositeBar.addComposite viewlet.toEntry }

/-- Source lines 238-241: pin the viewlet by default when no placeholder with
its id is recorded. -/
def pvDefaultPin (s : ActivitybarPart) (viewlet : ViewletDescriptor) : ActivitybarPart :=
  if s.placeholderComposites.all (fun c => !(c.id == viewlet.id)) then
    { s with compositeBar := s.compositeBar.pin viewlet.id }
  else s

/-- Source lines 244-248: pin and activate the viewlet when it is the active
one. -/
def pvActive (vs : ViewletService) (s : ActivitybarPart)
    (viewlet : ViewletDescriptor) : ActivitybarPart :=
  match vs.activeViewletId with
  | some activeId =>
    if activeId == viewlet.id then
      { s with compositeBar := (s.compositeBar.pin viewlet.id).activateComposite viewlet.id }
    else s
  | none => s

/-- The Host mutation the active-viewlet branch performs, at bar level. -/
def pvActiveBar (vs : ViewletService) (bar : CompositeBar) (v : ViewletDescriptor) : CompositeBar :=
  match vs.activeViewletId with
  | some activeId =>
    if activeId == v.id then (bar.pin v.id).activateComposite v.id else bar
  | none => bar

/-- Loop body of updateCompositebar, source lines 235-249: the statement
sequence addComposite, default pin, enableCompositeActions, active pin. -/
def processViewlet (vs : ViewletService) (s : ActivitybarPart)
    (viewlet : ViewletDescriptor) : ActivitybarPart :=
  pvActive vs (enableCompositeActions vs (pvDefaultPin (pvAdd s viewlet) viewlet) viewlet) viewlet

/-- Source lines 233-250. -/
def updateCompositebar (vs : ViewletService) (s : ActivitybarPart) : ActivitybarPart :=
  vs.viewlets.foldl (processViewlet vs) s

/-- Source lines 252-259: seed a Host entry for every recorded placeholder
with no registered viewlet yet; the entry literal carries the id as its name
and nothing else. -/
def updatePlaceholderComposites (vs : ViewletService) (s : ActivitybarPart) : ActivitybarPart :=
  s.placeholderComposites.foldl
    (fun acc ph =>
      if vs.viewlets.all (fun v => !(v.id == ph.id)) then
        { acc with compositeBar := acc.compositeBar.addComposite ⟨ph.id, ph.id, none, none⟩ }
      else acc)
    s

/-- Source lines 270-278: remove the Host entry and delete (after disposing)
the control pair of the id. -/
def ActivitybarPart.removeComposite (s : ActivitybarPart) (compositeId : String) : ActivitybarPart :=
  { s with compositeBar := s.compositeBar.removeComposite compositeId,
           compositeActions := s.compositeActions.filter (fun e => !(e.1 == compositeId)) }

/-- Source lines 261-268: remove every recorded placeholder id with no
registered viewlet. -/
def removeNotExistingPlaceholderComposites (vs : ViewletService) (s : ActivitybarPart) :
    ActivitybarPart :=
  s.placeholderComposites.foldl
    (fun acc ph =>
      if vs.viewlets.all (fun v => !(v.id == ph.id)) then acc.removeComposite ph.id
      else acc)
    s

/-- Source lines 125-128: the extensions-ready reconciliation. -/
def onDidRegisterExtensions (vs : ViewletService) (s : ActivitybarPart) : ActivitybarPart :=
  updateCompositebar vs (removeNotExistingPlaceholderComposites vs s)

/-- Source lines 88-95: revive the parsed placeholder records; an icon that is
not a serialized object becomes absent. -/
def parsePreviousState (parsed : List IPlaceholderComposite) : List IPlaceholderComposite :=
  parsed.map (fun c => { c with iconUrl := c.iconUrl.map URI.revive })

/-- Source lines 86-99: the placeholder list loaded at construction; the
stored blob when the storage key is present, else the legacy ids of the Host
with no icons. -/
def loadedPlaceholders (storedPlaceholderState : Option (List IPlaceholderComposite))
    (compositesFromStorage : List String) : List IPlaceholderComposite :=
  match storedPlaceholderState with
  | some parsed => parsePreviousState parsed
  | none => compositesFromStorage.map (fun id => { id := id, iconUrl := none })

/-- The fields of ActivitybarPart right after lines 86-99 of the constructor
ran, before updateCompositebar and updatePlaceholderComposites. -/
def initialState (globalActivityIds : List String)
    (storedPlaceholderState : Option (List IPlaceholderComposite))
    (compositesFromStorage : List String) (bar0 : CompositeBar) : ActivitybarPart :=
  { placeholderComposites := loadedPlaceholders storedPlaceholderState compositesFromStorage,
    compositeActions := [],
    compositeBar := bar0,
    globalActivityIdToActions :=
      globalActivityIds.map (fun id => { id := id, badge := none, clazz := none }) }

/-- Source lines 59-104, the parts of the constructor the coordinator owns:
load the placeholder list from the stored blob (storedPlaceholderState models
the JSON.parse of the stored string, present exactly when the storage key is
present), else migrate ids from the legacy storage of the Host; then run
updateCompositebar followed by updatePlaceholderComposites. The Host starts in
the state bar0 it restored itself. -/
def mkActivitybarPart (globalActivityIds : List String)
    (storedPlaceholderState : Option (List IPlaceholderComposite))
    (compositesFromStorage : List String) (bar0 : CompositeBar)
    (vs : ViewletService) : ActivitybarPart :=
  updatePlaceholderComposites vs
    (updateCompositebar vs
      (initialState globalActivityIds storedPlaceholderState compositesFromStorage bar0))

/-- Source lines 314-319: shutdown serializes the current viewlet set as the
next placeholder list. -/
def shutdown (vs : ViewletService) : List IPlaceholderComposite :=
  vs.viewlets.map (fun viewlet => { id := viewlet.id, iconUrl := viewlet.iconUrl })

/-- Source lines 290-292. -/
def getPinned (vs : ViewletService) (s : ActivitybarPart) : List String :=
  (vs.viewlets.map (fun v => v.id)).filter (fun id => s.compositeBar.isPinned id)

/-- The reading of getPinned the claim states: pinned live composite ids in
Composite Host order (the order of the Host entries). Written from the words
of the spec, to be compared with getPinned. -/
def getPinnedHostOrder (vs : ViewletService) (s : ActivitybarPart) : List String :=
  (s.compositeBar.entries.map (fun e => e.id)).filter
    (fun id => (vs.viewlets.any (fun v => v.id == id)) && s.compositeBar.isPinned id)

/-- Failures of showActivity on the global-activity route (lines 139-146);
the spec names them MissingBadge and UnknownActivityId. -/
inductive ActivityError where
  | MissingBadge
  | UnknownActivityId
deriving DecidableEq, Repr

/-- Set badge and clazz on the global activity action with the id
(GlobalActivityAction.setBadge in the source). -/
def setGlobalBadge (s : ActivitybarPart) (id : String) (badge : Option Badge)
    (clazz : Option String) : ActivitybarPart :=
  let updated := s.globalActivityIdToActions.map
    (fun a => if a.id == id then { a with badge := badge, clazz := clazz } else a)
  { s with globalActivityIdToActions := updated }

/-- The badge currently set on the global activity action with the id. -/
def getGlobalBadge (s : ActivitybarPart) (id : String) : Option Badge :=
  match s.globalActivityIdToActions.find? (fun a => a.id == id) with
  | some a => a.badge
  | none => none

/-- Source lines 138-151: showGlobalActivity. A missing badge or an unknown
global activity id throws before any mutation; the Except error carries no
successor state, so the failing cases leave the state untouched. -/
def showGlobalActivity (s : ActivitybarPart) (globalActivityId : String)
    (badge : Option Badge) (clazz : Option String) : Except ActivityError ActivitybarPart :=
  match badge with
  | none => .error ActivityError.MissingBadge
  | some b =>
    match s.globalActivityIdToActions.find? (fun a => a.id == globalActivityId) with
    | none => .error ActivityError.UnknownActivityId
    | some _ => .ok (setGlobalBadge s globalActivityId (some b) clazz)

/-- The release closure returned by showGlobalActivity (line 150): it sets the
badge of that action back to undefined. -/
def releaseGlobalBadge (s : ActivitybarPart) (id : String) : ActivitybarPart :=
  setGlobalBadge s id none none

/-- Source lines 130-136: route showActivity to the Host when the id names a
registered viewlet, else to showGlobalActivity. -/
def showActivity (vs : ViewletService) (s : ActivitybarPart) (viewletOrActionId : String)
    (badge : Option Badge) (clazz : Option String) (priority : Option Nat) :
    Except ActivityError ActivitybarPart :=
  match vs.getViewlet viewletOrActionId with
  | some _ =>
    .ok { s with compositeBar := s.compositeBar.showActivity viewletOrActionId badge clazz priority }
  | none => showGlobalActivity s viewletOrActionId badge clazz

/-! Concrete fixtures used by the witness and counterexample theorems. -/

/-- A Host with nothing in it. -/
def emptyBar : CompositeBar := { entries := [], pinned := [], activated := [], badges := [] }

/-- A coordinator state with nothing in it. -/
def emptyPart : ActivitybarPart :=
  { placeholderComposites := [], compositeActions := [], compositeBar := emptyBar,
    globalActivityIdToActions := [] }

/-- A registration source with nothing registered. -/
def vsEmpty : ViewletService := { viewlets := [], activeViewletId := none }

def viewletW : ViewletDescriptor := { id := "w", name := "W", order := none, iconUrl := none }

def vsW : ViewletService := { viewlets := [viewletW], activeViewletId := none }

def pairW : ControlPair := ControlPair.live viewletW

def stateW1 : ActivitybarPart := { emptyPart with compositeActions := [("w", pairW)] }

def viewletA : ViewletDescriptor := { id := "a", name := "A", order := none, iconUrl := none }

def viewletB : ViewletDescriptor := { id := "b", name := "B", order := none, iconUrl := none }

/-- Only viewlet a registered when the extensions-ready signal fires. -/
def vsOnlyA : ViewletService := { viewlets := [viewletA], activeViewletId := none }

/-- Placeholders a and b recorded at construction. -/
def stateAB : ActivitybarPart :=
  { emptyPart with
      placeholderComposites := [{ id := "a", iconUrl := none }, { id := "b", iconUrl := none }],
      compositeBar :=
        { emptyBar with
            entries := [{ id := "a", name := "a", order := none, iconUrl := none },
                        { id := "b", name := "b", order := none, iconUrl := none }] } }

def viewletD : ViewletDescriptor := { id := "d", name := "D", order := none, iconUrl := none }

/-- Viewlet d registered and active. -/
def vsActiveD : ViewletService := { viewlets := [viewletD], activeViewletId := some "d" }

/-- Viewlet d registered, nothing active. -/
def vsD : ViewletService := { viewlets := [viewletD], activeViewletId := none }

/-- A placeholder for d recorded at construction, d not pinned in the Host. -/
def stateD : ActivitybarPart :=
  { emptyPart with placeholderComposites := [{ id := "d", iconUrl := none }] }

def iconU1 : URI := { val := "u1" }

def viewletGit : ViewletDescriptor :=
  { id := "git", name := "Git", order := none, iconUrl := some iconU1 }

/-- The session being shut down, with the git viewlet live. -/
def vsGit : ViewletService := { viewlets := [viewletGit], activeViewletId := none }

/-- A state whose overlay knows the global activity globalX with no badge. -/
def stateGlobalX : ActivitybarPart :=
  { emptyPart with
      globalActivityIdToActions := [{ id := "globalX", badge := none, clazz := none }] }

def badgeFive : Badge := { content := "5" }

/-- The state after showActivity set badge 5 on globalX. -/
def stateGlobalXSet : ActivitybarPart :=
  { emptyPart with
      globalActivityIdToActions :=
        [{ id := "globalX", badge := some badgeFive, clazz := none }] }

def iconU : URI := { val := "u" }

/-- A placeholder x with a cached icon and an empty Host. -/
def stateX : ActivitybarPart :=
  { emptyPart with placeholderComposites := [{ id := "x", iconUrl := some iconU }] }

/-- Session in which b registered first, then a; both end up pinned, the Host
entry order is b before a while the registry order is a before b. -/
def vsB9 : ViewletService := { viewlets := [viewletB], activeViewletId := none }

def vsAB9 : ViewletService := { viewlets := [viewletA, viewletB], activeViewletId := none }

def state9 : ActivitybarPart :=
  updateCompositebar vsAB9 (updateCompositebar vsB9 emptyPart)

/-- A placeholder pair already cached for id p. -/
def statePairP : ActivitybarPart :=
  { emptyPart with
      compositeActions := [("p", ControlPair.placeholder "p" none)],
      placeholderComposites := [{ id := "p", iconUrl := none }] }

/-! Bridging lemmas between the Bool-valued queries and their Prop forms. -/

theorem barHasId_eq_false_iff (bar : CompositeBar) (x : String) :
    barHasId bar x = false ↔ ∀ e ∈ bar.entries, ¬ e.id = x := by
  simp [barHasId, List.any_eq_false]

theorem barHasId_eq_true_iff (bar : CompositeBar) (x : String) :
    barHasId bar x = true ↔ ∃ e ∈ bar.entries, e.id = x := by
  simp [barHasId, List.any_eq_true]

theorem hasPair_eq_true_iff (s : ActivitybarPart) (x : String) :
    hasPair s x = true ↔ ∃ e ∈ s.compositeActions, e.1 = x := by
  simp [hasPair, List.any_eq_true]

theorem lookupPair_eq_none_iff (s : ActivitybarPart) (x : String) :
    lookupPair s x = none ↔ ∀ e ∈ s.compositeActions, ¬ e.1 = x := by
  simp [lookupPair, Option.map_eq_none', List.find?_eq_none]

theorem isPinned_eq_true_iff (bar : CompositeBar) (x : String) :
    bar.isPinned x = true ↔ x ∈ bar.pinned := by
  constructor
  · intro h
    obtain ⟨y, hy, hyx⟩ := List.any_eq_true.mp h
    exact (beq_iff_eq.mp hyx) ▸ hy
  · intro h
    exact List.any_eq_true.mpr ⟨x, h, beq_iff_eq.mpr rfl⟩

/-! Structural lemmas about getCompositeActions. -/

theorem getCompositeActions_ok_fields (vs : ViewletService) (s : ActivitybarPart)
    (cid : String) (p : ControlPair) (s1 : ActivitybarPart)
    (h : getCompositeActions vs s cid = .ok (p, s1)) :
    s1.placeholderComposites = s.placeholderComposites
    ∧ s1.compositeBar = s.compositeBar
    ∧ s1.globalActivityIdToActions = s.globalActivityIdToActions
    ∧ (s1.compositeActions = s.compositeActions
       ∨ (lookupPair s cid = none
          ∧ s1.compositeActions = s.compositeActions ++ [(cid, p)])) := by
  unfold getCompositeActions at h
  split at h
  · simp only [Except.ok.injEq, Prod.mk.injEq] at h
    obtain ⟨rfl, rfl⟩ := h
    exact ⟨rfl, rfl, rfl, Or.inl rfl⟩
  · next hl =>
    split at h
    · simp only [Except.ok.injEq, Prod.mk.injEq] at h
      obtain ⟨rfl, rfl⟩ := h
      exact ⟨rfl, rfl, rfl, Or.inr ⟨hl, rfl⟩⟩
    · split at h
      · simp only [Except.ok.injEq, Prod.mk.injEq] at h
        obtain ⟨rfl, rfl⟩ := h
        exact ⟨rfl, rfl, rfl, Or.inr ⟨hl, rfl⟩⟩
      · exact Except.noConfusion h

theorem getCompositeActions_of_lookup_some (vs : ViewletService) (s : ActivitybarPart)
    (cid : String) (p : ControlPair) (h : lookupPair s cid = some p) :
    getCompositeActions vs s cid = .ok (p, s) := by
  unfold getCompositeActions
  rw [h]

theorem find?_append_of_none {α : Type} (p : α → Bool) (l₁ l₂ : List α)
    (h : l₁.find? p = none) : (l₁ ++ l₂).find? p = l₂.find? p := by
  induction l₁ with
  | nil => rfl
  | cons a t ih =>
    rw [List.find?] at h
    cases hp : p a with
    | true => rw [hp] at h; cases h
    | false =>
      rw [hp] at h
      simp only [List.cons_append, List.find?, hp]
      exact ih h

theorem getCompositeActions_ok_lookup (vs : ViewletService) (s : ActivitybarPart)
    (cid : String) (p : ControlPair) (s1 : ActivitybarPart)
    (h : getCompositeActions vs s cid = .ok (p, s1)) :
    lookupPair s1 cid = some p := by
  unfold getCompositeActions at h
  split at h
  · next pair hl =>
    simp only [Except.ok.injEq, Prod.mk.injEq] at h
    obtain ⟨rfl, rfl⟩ := h
    exact hl
  · next hl =>
    split at h
    · next viewlet hv =>
      simp only [Except.ok.injEq, Prod.mk.injEq] at h
      obtain ⟨rfl, rfl⟩ := h
      have hfind : s.compositeActions.find? (fun e => e.1 == cid) = none := by
        have := lookupPair_eq_none_iff s cid |>.mp hl
        exact List.find?_eq_none.mpr (by
          intro e he
          simpa using this e he)
      simp only [lookupPair]
      rw [find?_append_of_none _ _ _ hfind]
      simp [List.find?]
    · split at h
      · next ph hph =>
        simp only [Except.ok.injEq, Prod.mk.injEq] at h
        obtain ⟨rfl, rfl⟩ := h
        have hfind : s.compositeActions.find? (fun e => e.1 == cid) = none := by
          have := lookupPair_eq_none_iff s cid |>.mp hl
          exact List.find?_eq_none.mpr (by
            intro e he
            simpa using this e he)
        simp only [lookupPair]
        rw [find?_append_of_none _ _ _ hfind]
        simp [List.find?]
      · exact Except.noConfusion h

/-! Lemmas about the Host primitives. -/

theorem pin_entries (bar : CompositeBar) (id : String) :
    (bar.pin id).entries = bar.entries := by
  unfold CompositeBar.pin
  split <;> rfl

theorem activate_entries (bar : CompositeBar) (id : String) :
    (bar.activateComposite id).entries = bar.entries := by
  unfold CompositeBar.activateComposite
  split <;> rfl

theorem activate_pinned (bar : CompositeBar) (id : String) :
    (bar.activateComposite id).pinned = bar.pinned := by
  unfold CompositeBar.activateComposite
  split <;> rfl

theorem addComposite_pinned (bar : CompositeBar) (e : CompositeEntry) :
    (bar.addComposite e).pinned = bar.pinned := by
  unfold CompositeBar.addComposite
  split <;> rfl

theorem pin_isPinned_self (bar : CompositeBar) (id : String) :
    (bar.pin id).isPinned id = true := by
  unfold CompositeBar.pin
  split
  · next h => exact h
  · simp [CompositeBar.isPinned, List.any_eq_true]

theorem pin_isPinned_other (bar : CompositeBar) (id x : String) (hx : ¬ x = id) :
    (bar.pin id).isPinned x = bar.isPinned x := by
  unfold CompositeBar.pin
  split
  · rfl
  · simp only [CompositeBar.isPinned, List.any_append, List.any_cons, List.any_nil]
    have : (id == x) = false := by
      simp only [beq_eq_false_iff_ne, ne_eq]
      intro h; exact hx h.symm
    simp [this]

theorem pin_isPinned_true (bar : CompositeBar) (id x : String)
    (h : bar.isPinned x = true) : (bar.pin id).isPinned x = true := by
  unfold CompositeBar.pin
  split
  · exact h
  · simp only [CompositeBar.isPinned, List.any_append] at h ⊢
    simp [CompositeBar.isPinned] at h
    simp [CompositeBar.isPinned, h]

theorem addComposite_entry_mem (bar : CompositeBar) (e x : CompositeEntry)
    (h : x ∈ bar.entries) : x ∈ (bar.addComposite e).entries := by
  unfold CompositeBar.addComposite
  split
  · exact h
  · exact List.mem_append.mpr (Or.inl h)

theorem addComposite_has_self (bar : CompositeBar) (e : CompositeEntry) :
    ∃ x ∈ (bar.addComposite e).entries, x.id = e.id := by
  unfold CompositeBar.addComposite
  split
  · next h =>
    obtain ⟨x, hx, hxe⟩ := List.any_eq_true.mp h
    exact ⟨x, hx, beq_iff_eq.mp hxe⟩
  · exact ⟨e, List.mem_append.mpr (Or.inr (List.mem_singleton.mpr rfl)), rfl⟩

theorem addComposite_mem_of_absent (bar : CompositeBar) (e : CompositeEntry)
    (h : ∀ x ∈ bar.entries, ¬ x.id = e.id) : e ∈ (bar.addComposite e).entries := by
  unfold CompositeBar.addComposite
  split
  · next hany =>
    obtain ⟨x, hx, hxe⟩ := List.any_eq_true.mp hany
    exact absurd (beq_iff_eq.mp hxe) (h x hx)
  · exact List.mem_append.mpr (Or.inr (List.mem_singleton.mpr rfl))

theorem addComposite_absent_preserved (bar : CompositeBar) (e : CompositeEntry) (x : String)
    (hne : ¬ e.id = x) (h : ∀ y ∈ bar.entries, ¬ y.id = x) :
    ∀ y ∈ (bar.addComposite e).entries, ¬ y.id = x := by
  unfold CompositeBar.addComposite
  split
  · exact h
  · intro y hy
    rcases List.mem_append.mp hy with hmem | hmem
    · exact h y hmem
    · rw [List.mem_singleton.mp hmem]
      exact hne

theorem removeComposite_absent (bar : CompositeBar) (id : String) :
    ∀ y ∈ (bar.removeComposite id).entries, ¬ y.id = id := by
  intro y hy
  have := (List.mem_filter.mp hy).2
  simpa using this

theorem removeComposite_absent_preserved (bar : CompositeBar) (id x : String)
    (h : ∀ y ∈ bar.entries, ¬ y.id = x) :
    ∀ y ∈ (bar.removeComposite id).entries, ¬ y.id = x := by
  intro y hy
  exact h y (List.mem_filter.mp hy).1

/-! Lemmas about enableCompositeActions. -/

theorem pair_present_of_lookup (s : ActivitybarPart) (x : String) (p : ControlPair)
    (h : lookupPair s x = some p) : ∃ e ∈ s.compositeActions, e.1 = x := by
  unfold lookupPair at h
  obtain ⟨e, hfind, hsnd⟩ := Option.map_eq_some'.mp h
  exact ⟨e, List.mem_of_find?_eq_some hfind, by simpa using List.find?_some hfind⟩

theorem update_key_eq (v : ViewletDescriptor) (e : String × ControlPair) :
    (if e.1 == v.id then (e.1, setActivity v (e.2)) else e).1 = e.1 := by
  split <;> rfl

theorem enableCompositeActions_bar (vs : ViewletService) (s : ActivitybarPart)
    (v : ViewletDescriptor) :
    (enableCompositeActions vs s v).compositeBar = s.compositeBar := by
  unfold enableCompositeActions
  split
  · rfl
  · next pair s1 hok =>
    have hf := getCompositeActions_ok_fields vs s v.id pair s1 hok
    split
    · exact hf.2.1
    · exact hf.2.1

theorem enableCompositeActions_placeholders (vs : ViewletService) (s : ActivitybarPart)
    (v : ViewletDescriptor) :
    (enableCompositeActions vs s v).placeholderComposites = s.placeholderComposites := by
  unfold enableCompositeActions
  split
  · rfl
  · next pair s1 hok =>
    have hf := getCompositeActions_ok_fields vs s v.id pair s1 hok
    split
    · exact hf.1
    · exact hf.1

theorem enableCompositeActions_global (vs : ViewletService) (s : ActivitybarPart)
    (v : ViewletDescriptor) :
    (enableCompositeActions vs s v).globalActivityIdToActions = s.globalActivityIdToActions := by
  unfold enableCompositeActions
  split
  · rfl
  · next pair s1 hok =>
    have hf := getCompositeActions_ok_fields vs s v.id pair s1 hok
    split
    · exact hf.2.2.1
    · exact hf.2.2.1

theorem enableCompositeActions_pair_absent (vs : ViewletService) (s : ActivitybarPart)
    (v : ViewletDescriptor) (x : String) (hne : ¬ v.id = x)
    (h : ∀ e ∈ s.compositeActions, ¬ e.1 = x) :
    ∀ e ∈ (enableCompositeActions vs s v).compositeActions, ¬ e.1 = x := by
  unfold enableCompositeActions
  split
  · exact h
  · next pair s1 hok =>
    have hf := getCompositeActions_ok_fields vs s v.id pair s1 hok
    have h1 : ∀ e ∈ s1.compositeActions, ¬ e.1 = x := by
      rcases hf.2.2.2 with heq | heq
      · rw [heq]; exact h
      · rw [heq.2]
        intro e he
        rcases List.mem_append.mp he with hmem | hmem
        · exact h e hmem
        · rw [List.mem_singleton.mp hmem]
          exact hne
    split
    · exact h1
    · intro e he
      obtain ⟨e0, he0, heq⟩ := List.mem_map.mp he
      rw [← heq, update_key_eq]
      exact h1 e0 he0

theorem enableCompositeActions_pair_present (vs : ViewletService) (s : ActivitybarPart)
    (v : ViewletDescriptor) (x : String)
    (h : ∃ e ∈ s.compositeActions, e.1 = x) :
    ∃ e ∈ (enableCompositeActions vs s v).compositeActions, e.1 = x := by
  unfold enableCompositeActions
  split
  · exact h
  · next pair s1 hok =>
    have hf := getCompositeActions_ok_fields vs s v.id pair s1 hok
    have h1 : ∃ e ∈ s1.compositeActions, e.1 = x := by
      rcases hf.2.2.2 with heq | heq
      · rw [heq]; exact h
      · rw [heq.2]
        obtain ⟨e, he, hex⟩ := h
        exact ⟨e, List.mem_append.mpr (Or.inl he), hex⟩
    split
    · exact h1
    · obtain ⟨e, he, hex⟩ := h1
      refine ⟨(if e.1 == v.id then (e.1, setActivity v (e.2)) else e),
        List.mem_map_of_mem _ he, ?_⟩
      rw [update_key_eq]
      exact hex

theorem getCompositeActions_isOk_of_viewlet (vs : ViewletService) (s : ActivitybarPart)
    (cid : String) (w : ViewletDescriptor) (hw : vs.getViewlet cid = some w) :
    ∃ p s1, getCompositeActions vs s cid = .ok (p, s1) := by
  unfold getCompositeActions
  cases hl : lookupPair s cid with
  | some pair => exact ⟨pair, s, rfl⟩
  | none =>
    rw [hw]
    exact ⟨_, _, rfl⟩

theorem enableCompositeActions_pair_self (vs : ViewletService) (s : ActivitybarPart)
    (v : ViewletDescriptor) (w : ViewletDescriptor) (hw : vs.getViewlet v.id = some w) :
    ∃ e ∈ (enableCompositeActions vs s v).compositeActions, e.1 = v.id := by
  unfold enableCompositeActions
  split
  · next err herr =>
    obtain ⟨p, s1, hok⟩ := getCompositeActions_isOk_of_viewlet vs s v.id w hw
    rw [hok] at herr
    exact Except.noConfusion herr
  · next pair s1 hok =>
    have hl := getCompositeActions_ok_lookup vs s v.id pair s1 hok
    have hpresent := pair_present_of_lookup s1 v.id pair hl
    split
    · exact hpresent
    · obtain ⟨e, he, hex⟩ := hpresent
      refine ⟨(if e.1 == v.id then (e.1, setActivity v (e.2)) else e),
        List.mem_map_of_mem _ he, ?_⟩
      rw [update_key_eq]
      exact hex

/-! Lemmas about the stages of processViewlet. -/

theorem pvAdd_actions (s : ActivitybarPart) (v : ViewletDescriptor) :
    (pvAdd s v).compositeActions = s.compositeActions := rfl

theorem pvAdd_placeholders (s : ActivitybarPart) (v : ViewletDescriptor) :
    (pvAdd s v).placeholderComposites = s.placeholderComposites := rfl

theorem pvDefaultPin_actions (s : ActivitybarPart) (v : ViewletDescriptor) :
    (pvDefaultPin s v).compositeActions = s.compositeActions := by
  unfold pvDefaultPin
  split <;> rfl

theorem pvDefaultPin_placeholders (s : ActivitybarPart) (v : ViewletDescriptor) :
    (pvDefaultPin s v).placeholderComposites = s.placeholderComposites := by
  unfold pvDefaultPin
  split <;> rfl

theorem pvDefaultPin_entries (s : ActivitybarPart) (v : ViewletDescriptor) :
    (pvDefaultPin s v).compositeBar.entries = s.compositeBar.entries := by
  unfold pvDefaultPin
  split
  · exact pin_entries _ _
  · rfl

theorem pvActive_actions (vs : ViewletService) (s : ActivitybarPart) (v : ViewletDescriptor) :
    (pvActive vs s v).compositeActions = s.compositeActions := by
  unfold pvActive
  split
  · split <;> rfl
  · rfl

theorem pvActive_placeholders (vs : ViewletService) (s : ActivitybarPart) (v : ViewletDescriptor) :
    (pvActive vs s v).placeholderComposites = s.placeholderComposites := by
  unfold pvActive
  split
  · split <;> rfl
  · rfl

theorem pvActive_bar (vs : ViewletService) (s : ActivitybarPart) (v : ViewletDescriptor) :
    (pvActive vs s v).compositeBar = pvActiveBar vs s.compositeBar v := by
  unfold pvActive pvActiveBar
  split
  · split <;> rfl
  · rfl

theorem pvActiveBar_entries (vs : ViewletService) (bar : CompositeBar) (v : ViewletDescriptor) :
    (pvActiveBar vs bar v).entries = bar.entries := by
  unfold pvActiveBar
  split
  · split
    · rw [activate_entries, pin_entries]
    · rfl
  · rfl

theorem pvActiveBar_isPinned_true (vs : ViewletService) (bar : CompositeBar)
    (v : ViewletDescriptor) (x : String) (h : bar.isPinned x = true) :
    (pvActiveBar vs bar v).isPinned x = true := by
  unfold pvActiveBar
  split
  · split
    · have hpin := pin_isPinned_true bar v.id x h
      have : ((bar.pin v.id).activateComposite v.id).pinned = (bar.pin v.id).pinned :=
        activate_pinned _ _
      unfold CompositeBar.isPinned at hpin ⊢
      rw [this]
      exact hpin
    · exact h
  · exact h

theorem processViewlet_placeholders (vs : ViewletService) (s : ActivitybarPart)
    (v : ViewletDescriptor) :
    (processViewlet vs s v).placeholderComposites = s.placeholderComposites := by
  unfold processViewlet
  rw [pvActive_placeholders, enableCompositeActions_placeholders, pvDefaultPin_placeholders,
    pvAdd_placeholders]

theorem processViewlet_actions (vs : ViewletService) (s : ActivitybarPart)
    (v : ViewletDescriptor) :
    (processViewlet vs s v).compositeActions =
      (enableCompositeActions vs (pvDefaultPin (pvAdd s v) v) v).compositeActions := by
  unfold processViewlet
  rw [pvActive_actions]

theorem processViewlet_entries (vs : ViewletService) (s : ActivitybarPart)
    (v : ViewletDescriptor) :
    (processViewlet vs s v).compositeBar.entries =
      (s.compositeBar.addComposite v.toEntry).entries := by
  unfold processViewlet
  rw [pvActive_bar, pvActiveBar_entries, enableCompositeActions_bar, pvDefaultPin_entries]
  rfl

/-! Pin-state lemmas for the stages of processViewlet. -/

theorem addComposite_isPinned (bar : CompositeBar) (e : CompositeEntry) (x : String) :
    (bar.addComposite e).isPinned x = bar.isPinned x := by
  unfold CompositeBar.isPinned
  rw [addComposite_pinned]

theorem activate_isPinned (bar : CompositeBar) (id x : String) :
    (bar.activateComposite id).isPinned x = bar.isPinned x := by
  unfold CompositeBar.isPinned
  rw [activate_pinned]

theorem pvAdd_isPinned (s : ActivitybarPart) (v : ViewletDescriptor) (x : String) :
    (pvAdd s v).compositeBar.isPinned x = s.compositeBar.isPinned x :=
  addComposite_isPinned _ _ _

theorem pvDefaultPin_bar_of_all (s : ActivitybarPart) (v : ViewletDescriptor)
    (h : s.placeholderComposites.all (fun c => !(c.id == v.id)) = true) :
    (pvDefaultPin s v).compositeBar = s.compositeBar.pin v.id := by
  unfold pvDefaultPin
  rw [if_pos h]

theorem pvDefaultPin_bar_of_not (s : ActivitybarPart) (v : ViewletDescriptor)
    (h : s.placeholderComposites.all (fun c => !(c.id == v.id)) = false) :
    (pvDefaultPin s v).compositeBar = s.compositeBar := by
  unfold pvDefaultPin
  rw [if_neg (by simp [h])]

theorem pvDefaultPin_isPinned_true (s : ActivitybarPart) (v : ViewletDescriptor) (x : String)
    (h : s.compositeBar.isPinned x = true) :
    (pvDefaultPin s v).compositeBar.isPinned x = true := by
  unfold pvDefaultPin
  split
  · exact pin_isPinned_true _ _ _ h
  · exact h

theorem pvDefaultPin_isPinned_other (s : ActivitybarPart) (v : ViewletDescriptor) (x : String)
    (hx : ¬ x = v.id) :
    (pvDefaultPin s v).compositeBar.isPinned x = s.compositeBar.isPinned x := by
  unfold pvDefaultPin
  split
  · exact pin_isPinned_other _ _ _ hx
  · rfl

theorem pvActiveBar_isPinned_other (vs : ViewletService) (bar : CompositeBar)
    (v : ViewletDescriptor) (x : String) (hx : ¬ x = v.id) :
    (pvActiveBar vs bar v).isPinned x = bar.isPinned x := by
  unfold pvActiveBar
  split
  · split
    · rw [activate_isPinned, pin_isPinned_other _ _ _ hx]
    · rfl
  · rfl

theorem processViewlet_pins_self (vs : ViewletService) (s : ActivitybarPart)
    (v : ViewletDescriptor) (hnp : ∀ c ∈ s.placeholderComposites, ¬ c.id = v.id) :
    (processViewlet vs s v).compositeBar.isPinned v.id = true := by
  unfold processViewlet
  rw [pvActive_bar, enableCompositeActions_bar]
  apply pvActiveBar_isPinned_true
  have hall : (pvAdd s v).placeholderComposites.all (fun c => !(c.id == v.id)) = true := by
    rw [pvAdd_placeholders]
    exact List.all_eq_true.mpr (fun c hc => by simpa using hnp c hc)
  rw [pvDefaultPin_bar_of_all _ _ hall]
  exact pin_isPinned_self _ _

theorem processViewlet_isPinned_true (vs : ViewletService) (s : ActivitybarPart)
    (v : ViewletDescriptor) (x : String) (h : s.compositeBar.isPinned x = true) :
    (processViewlet vs s v).compositeBar.isPinned x = true := by
  unfold processViewlet
  rw [pvActive_bar, enableCompositeActions_bar]
  apply pvActiveBar_isPinned_true
  apply pvDefaultPin_isPinned_true
  rw [pvAdd_isPinned]
  exact h

theorem processViewlet_isPinned_unchanged (vs : ViewletService) (s : ActivitybarPart)
    (v : ViewletDescriptor) (x : String)
    (hcond : v.id = x →
      (∃ c ∈ s.placeholderComposites, c.id = x) ∧ ¬ vs.activeViewletId = some x) :
    (processViewlet vs s v).compositeBar.isPinned x = s.compositeBar.isPinned x := by
  unfold processViewlet
  rw [pvActive_bar, enableCompositeActions_bar]
  by_cases hvx : v.id = x
  · obtain ⟨⟨c, hc, hcx⟩, hact⟩ := hcond hvx
    have hall : (pvAdd s v).placeholderComposites.all (fun c => !(c.id == v.id)) = false := by
      rw [pvAdd_placeholders]
      apply Bool.eq_false_iff.mpr
      intro htrue
      have := List.all_eq_true.mp htrue c hc
      rw [hcx, hvx] at this
      simp at this
    rw [pvDefaultPin_bar_of_not _ _ hall]
    unfold pvActiveBar
    split
    · next a ha =>
      cases hax : (a == v.id) with
      | true =>
        exfalso
        apply hact
        rw [ha, beq_iff_eq.mp hax, hvx]
      | false =>
        rw [if_neg (by simp [hax])]
        exact pvAdd_isPinned _ _ _
    · exact pvAdd_isPinned _ _ _
  · have hx : ¬ x = v.id := fun h => hvx h.symm
    rw [pvActiveBar_isPinned_other _ _ _ _ hx, pvDefaultPin_isPinned_other _ _ _ hx,
      pvAdd_isPinned]

/-! Absence and presence lemmas for processViewlet. -/

theorem processViewlet_pair_absent (vs : ViewletService) (s : ActivitybarPart)
    (v : ViewletDescriptor) (x : String) (hne : ¬ v.id = x)
    (h : ∀ e ∈ s.compositeActions, ¬ e.1 = x) :
    ∀ e ∈ (processViewlet vs s v).compositeActions, ¬ e.1 = x := by
  rw [processViewlet_actions]
  apply enableCompositeActions_pair_absent _ _ _ _ hne
  rw [pvDefaultPin_actions, pvAdd_actions]
  exact h

theorem processViewlet_pair_present (vs : ViewletService) (s : ActivitybarPart)
    (v : ViewletDescriptor) (x : String)
    (h : ∃ e ∈ s.compositeActions, e.1 = x) :
    ∃ e ∈ (processViewlet vs s v).compositeActions, e.1 = x := by
  rw [processViewlet_actions]
  apply enableCompositeActions_pair_present
  rw [pvDefaultPin_actions, pvAdd_actions]
  exact h

theorem processViewlet_pair_self (vs : ViewletService) (s : ActivitybarPart)
    (v : ViewletDescriptor) (w : ViewletDescriptor) (hw : vs.getViewlet v.id = some w) :
    ∃ e ∈ (processViewlet vs s v).compositeActions, e.1 = v.id := by
  rw [processViewlet_actions]
  exact enableCompositeActions_pair_self _ _ _ _ hw

theorem processViewlet_entries_absent (vs : ViewletService) (s : ActivitybarPart)
    (v : ViewletDescriptor) (x : String) (hne : ¬ v.id = x)
    (h : ∀ e ∈ s.compositeBar.entries, ¬ e.id = x) :
    ∀ e ∈ (processViewlet vs s v).compositeBar.entries, ¬ e.id = x := by
  intro e he
  rw [processViewlet_entries] at he
  exact addComposite_absent_preserved s.compositeBar v.toEntry x hne h e he

theorem processViewlet_entries_present (vs : ViewletService) (s : ActivitybarPart)
    (v : ViewletDescriptor) (x : String)
    (h : ∃ e ∈ s.compositeBar.entries, e.id = x) :
    ∃ e ∈ (processViewlet vs s v).compositeBar.entries, e.id = x := by
  obtain ⟨e, he, hex⟩ := h
  refine ⟨e, ?_, hex⟩
  rw [processViewlet_entries]
  exact addComposite_entry_mem _ _ _ he

theorem processViewlet_entry_mem (vs : ViewletService) (s : ActivitybarPart)
    (v : ViewletDescriptor) (e : CompositeEntry) (h : e ∈ s.compositeBar.entries) :
    e ∈ (processViewlet vs s v).compositeBar.entries := by
  rw [processViewlet_entries]
  exact addComposite_entry_mem _ _ _ h

theorem processViewlet_entries_self (vs : ViewletService) (s : ActivitybarPart)
    (v : ViewletDescriptor) :
    ∃ e ∈ (processViewlet vs s v).compositeBar.entries, e.id = v.id := by
  have h := addComposite_has_self s.compositeBar v.toEntry
  obtain ⟨e, he, hex⟩ := h
  refine ⟨e, ?_, hex⟩
  rw [processViewlet_entries]
  exact he

/-! Fold lemmas over the viewlet loop of updateCompositebar. -/

theorem foldl_pv_placeholders (vs : ViewletService) (l : List ViewletDescriptor) :
    ∀ acc : ActivitybarPart,
      (l.foldl (processViewlet vs) acc).placeholderComposites = acc.placeholderComposites := by
  induction l with
  | nil => intro acc; rfl
  | cons a t ih =>
    intro acc
    rw [List.foldl_cons, ih, processViewlet_placeholders]

theorem foldl_pv_pair_present (vs : ViewletService) (l : List ViewletDescriptor) (x : String) :
    ∀ acc : ActivitybarPart, (∃ e ∈ acc.compositeActions, e.1 = x) →
      ∃ e ∈ (l.foldl (processViewlet vs) acc).compositeActions, e.1 = x := by
  induction l with
  | nil => intro acc h; exact h
  | cons a t ih =>
    intro acc h
    rw [List.foldl_cons]
    exact ih _ (processViewlet_pair_present vs acc a x h)

theorem foldl_pv_entries_present (vs : ViewletService) (l : List ViewletDescriptor) (x : String) :
    ∀ acc : ActivitybarPart, (∃ e ∈ acc.compositeBar.entries, e.id = x) →
      ∃ e ∈ (l.foldl (processViewlet vs) acc).compositeBar.entries, e.id = x := by
  induction l with
  | nil => intro acc h; exact h
  | cons a t ih =>
    intro acc h
    rw [List.foldl_cons]
    exact ih _ (processViewlet_entries_present vs acc a x h)

theorem foldl_pv_entry_mem (vs : ViewletService) (l : List ViewletDescriptor)
    (e : CompositeEntry) :
    ∀ acc : ActivitybarPart, e ∈ acc.compositeBar.entries →
      e ∈ (l.foldl (processViewlet vs) acc).compositeBar.entries := by
  induction l with
  | nil => intro acc h; exact h
  | cons a t ih =>
    intro acc h
    rw [List.foldl_cons]
    exact ih _ (processViewlet_entry_mem vs acc a e h)

theorem foldl_pv_absent (vs : ViewletService) (l : List ViewletDescriptor) (x : String)
    (hl : ∀ v ∈ l, ¬ v.id = x) :
    ∀ acc : ActivitybarPart,
      (∀ e ∈ acc.compositeActions, ¬ e.1 = x) →
      (∀ e ∈ acc.compositeBar.entries, ¬ e.id = x) →
      (∀ e ∈ (l.foldl (processViewlet vs) acc).compositeActions, ¬ e.1 = x)
      ∧ (∀ e ∈ (l.foldl (processViewlet vs) acc).compositeBar.entries, ¬ e.id = x) := by
  induction l with
  | nil => intro acc h1 h2; exact ⟨h1, h2⟩
  | cons a t ih =>
    intro acc h1 h2
    rw [List.foldl_cons]
    have ha : ¬ a.id = x := hl a (List.mem_cons_self a t)
    exact ih (fun v hv => hl v (List.mem_cons_of_mem a hv)) _
      (processViewlet_pair_absent vs acc a x ha h1)
      (processViewlet_entries_absent vs acc a x ha h2)

theorem getViewlet_isSome_of_mem (vs : ViewletService) (v : ViewletDescriptor)
    (h : v ∈ vs.viewlets) : ∃ w, vs.getViewlet v.id = some w := by
  unfold ViewletService.getViewlet
  cases hf : vs.viewlets.find? (fun u => u.id == v.id) with
  | some w => exact ⟨w, rfl⟩
  | none =>
    have := List.find?_eq_none.mp hf v h
    simp at this

theorem foldl_pv_self (vs : ViewletService) (l : List ViewletDescriptor)
    (v : ViewletDescriptor) (hv : v ∈ vs.viewlets) :
    ∀ acc : ActivitybarPart, v ∈ l →
      (∃ e ∈ (l.foldl (processViewlet vs) acc).compositeBar.entries, e.id = v.id)
      ∧ (∃ e ∈ (l.foldl (processViewlet vs) acc).compositeActions, e.1 = v.id) := by
  induction l with
  | nil => intro acc h; exact absurd h (List.not_mem_nil v)
  | cons a t ih =>
    intro acc hmem
    rw [List.foldl_cons]
    rcases List.mem_cons.mp hmem with heq | hmem2
    · subst heq
      obtain ⟨w, hw⟩ := getViewlet_isSome_of_mem vs v hv
      constructor
      · exact foldl_pv_entries_present vs t v.id _ (processViewlet_entries_self vs acc v)
      · exact foldl_pv_pair_present vs t v.id _ (processViewlet_pair_self vs acc v w hw)
    · exact ih _ hmem2

theorem foldl_pv_isPinned_true (vs : ViewletService) (l : List ViewletDescriptor) (x : String) :
    ∀ acc : ActivitybarPart, acc.compositeBar.isPinned x = true →
      (l.foldl (processViewlet vs) acc).compositeBar.isPinned x = true := by
  induction l with
  | nil => intro acc h; exact h
  | cons a t ih =>
    intro acc h
    rw [List.foldl_cons]
    exact ih _ (processViewlet_isPinned_true vs acc a x h)

theorem foldl_pv_pin_default (vs : ViewletService) (l : List ViewletDescriptor) (x : String) :
    ∀ acc : ActivitybarPart, (∀ c ∈ acc.placeholderComposites, ¬ c.id = x) →
      (∃ v ∈ l, v.id = x) →
      (l.foldl (processViewlet vs) acc).compositeBar.isPinned x = true := by
  induction l with
  | nil =>
    intro acc _ h
    obtain ⟨v, hv, _⟩ := h
    exact absurd hv (List.not_mem_nil v)
  | cons a t ih =>
    intro acc hnp hex
    rw [List.foldl_cons]
    rcases hex with ⟨v, hmem, hvx⟩
    rcases List.mem_cons.mp hmem with heq | hmem2
    · subst heq
      apply foldl_pv_isPinned_true
      rw [← hvx]
      exact processViewlet_pins_self vs acc v (fun c hc hcx => hnp c hc (hvx ▸ hcx))
    · apply ih
      · rw [processViewlet_placeholders]
        exact hnp
      · exact ⟨v, hmem2, hvx⟩

theorem foldl_pv_isPinned_unchanged (vs : ViewletService) (l : List ViewletDescriptor)
    (x : String) (hact : ¬ vs.activeViewletId = some x) :
    ∀ acc : ActivitybarPart, (∃ c ∈ acc.placeholderComposites, c.id = x) →
      (l.foldl (processViewlet vs) acc).compositeBar.isPinned x
        = acc.compositeBar.isPinned x := by
  induction l with
  | nil => intro acc _; rfl
  | cons a t ih =>
    intro acc hph
    rw [List.foldl_cons]
    have hstep := processViewlet_isPinned_unchanged vs acc a x (fun _ => ⟨hph, hact⟩)
    have hrec := ih (processViewlet vs acc a) (by rw [processViewlet_placeholders]; exact hph)
    rw [hrec, hstep]

/-! Lemmas about removeComposite and the reconciliation fold. -/

theorem removeComposite_placeholders (s : ActivitybarPart) (cid : String) :
    (s.removeComposite cid).placeholderComposites = s.placeholderComposites := rfl

theorem removeComposite_pair_absent (s : ActivitybarPart) (cid : String) :
    ∀ e ∈ (s.removeComposite cid).compositeActions, ¬ e.1 = cid := by
  intro e he
  have := (List.mem_filter.mp he).2
  simpa using this

theorem removeComposite_pair_absent_preserved (s : ActivitybarPart) (cid x : String)
    (h : ∀ e ∈ s.compositeActions, ¬ e.1 = x) :
    ∀ e ∈ (s.removeComposite cid).compositeActions, ¬ e.1 = x := by
  intro e he
  exact h e (List.mem_filter.mp he).1

theorem removeComposite_entries_absent (s : ActivitybarPart) (cid : String) :
    ∀ e ∈ (s.removeComposite cid).compositeBar.entries, ¬ e.id = cid :=
  removeComposite_absent s.compositeBar cid

theorem removeComposite_entries_absent_preserved (s : ActivitybarPart) (cid x : String)
    (h : ∀ e ∈ s.compositeBar.entries, ¬ e.id = x) :
    ∀ e ∈ (s.removeComposite cid).compositeBar.entries, ¬ e.id = x :=
  removeComposite_absent_preserved s.compositeBar cid x h

theorem foldl_rn_placeholders (vs : ViewletService) (l : List IPlaceholderComposite) :
    ∀ acc : ActivitybarPart,
      (l.foldl
        (fun acc ph =>
          if vs.viewlets.all (fun v => !(v.id == ph.id)) then acc.removeComposite ph.id
          else acc) acc).placeholderComposites = acc.placeholderComposites := by
  induction l with
  | nil => intro acc; rfl
  | cons a t ih =>
    intro acc
    rw [List.foldl_cons, ih]
    split <;> rfl

theorem foldl_rn_absent_preserved (vs : ViewletService) (l : List IPlaceholderComposite)
    (x : String) :
    ∀ acc : ActivitybarPart,
      (∀ e ∈ acc.compositeActions, ¬ e.1 = x) →
      (∀ e ∈ acc.compositeBar.entries, ¬ e.id = x) →
      (∀ e ∈ (l.foldl
          (fun acc ph =>
            if vs.viewlets.all (fun v => !(v.id == ph.id)) then acc.removeComposite ph.id
            else acc) acc).compositeActions, ¬ e.1 = x)
      ∧ (∀ e ∈ (l.foldl
          (fun acc ph =>
            if vs.viewlets.all (fun v => !(v.id == ph.id)) then acc.removeComposite ph.id
            else acc) acc).compositeBar.entries, ¬ e.id = x) := by
  induction l with
  | nil => intro acc h1 h2; exact ⟨h1, h2⟩
  | cons a t ih =>
    intro acc h1 h2
    rw [List.foldl_cons]
    by_cases hc : vs.viewlets.all (fun v => !(v.id == a.id)) = true
    · rw [if_pos hc]
      exact ih _ (removeComposite_pair_absent_preserved acc a.id x h1)
        (removeComposite_entries_absent_preserved acc a.id x h2)
    · rw [if_neg hc]
      exact ih _ h1 h2

theorem foldl_rn_ghost_absent (vs : ViewletService) (l : List IPlaceholderComposite)
    (ph : IPlaceholderComposite) (hg : ∀ v ∈ vs.viewlets, ¬ v.id = ph.id) :
    ∀ acc : ActivitybarPart, ph ∈ l →
      (∀ e ∈ (l.foldl
          (fun acc ph =>
            if vs.viewlets.all (fun v => !(v.id == ph.id)) then acc.removeComposite ph.id
            else acc) acc).compositeActions, ¬ e.1 = ph.id)
      ∧ (∀ e ∈ (l.foldl
          (fun acc ph =>
            if vs.viewlets.all (fun v => !(v.id == ph.id)) then acc.removeComposite ph.id
            else acc) acc).compositeBar.entries, ¬ e.id = ph.id) := by
  induction l with
  | nil => intro acc h; exact absurd h (List.not_mem_nil ph)
  | cons a t ih =>
    intro acc hmem
    rw [List.foldl_cons]
    rcases List.mem_cons.mp hmem with heq | hmem2
    · subst heq
      have hall : vs.viewlets.all (fun v => !(v.id == ph.id)) = true :=
        List.all_eq_true.mpr (fun v hv => by simpa using hg v hv)
      rw [if_pos hall]
      exact foldl_rn_absent_preserved vs t ph.id _
        (removeComposite_pair_absent acc ph.id)
        (removeComposite_entries_absent acc ph.id)
    · exact ih _ hmem2

/-! Lemmas about the placeholder seeding fold. -/

theorem foldl_upc_actions (vs : ViewletService) (l : List IPlaceholderComposite) :
    ∀ acc : ActivitybarPart,
      (l.foldl
        (fun acc ph =>
          if vs.viewlets.all (fun v => !(v.id == ph.id)) then
            { acc with compositeBar := acc.compositeBar.addComposite ⟨ph.id, ph.id, none, none⟩ }
          else acc) acc).compositeActions = acc.compositeActions := by
  induction l with
  | nil => intro acc; rfl
  | cons a t ih =>
    intro acc
    rw [List.foldl_cons, ih]
    split <;> rfl

theorem foldl_upc_placeholders (vs : ViewletService) (l : List IPlaceholderComposite) :
    ∀ acc : ActivitybarPart,
      (l.foldl
        (fun acc ph =>
          if vs.viewlets.all (fun v => !(v.id == ph.id)) then
            { acc with compositeBar := acc.compositeBar.addComposite ⟨ph.id, ph.id, none, none⟩ }
          else acc) acc).placeholderComposites = acc.placeholderComposites := by
  induction l with
  | nil => intro acc; rfl
  | cons a t ih =>
    intro acc
    rw [List.foldl_cons, ih]
    split <;> rfl

theorem foldl_upc_entry_mem (vs : ViewletService) (l : List IPlaceholderComposite)
    (e : CompositeEntry) :
    ∀ acc : ActivitybarPart, e ∈ acc.compositeBar.entries →
      e ∈ (l.foldl
        (fun acc ph =>
          if vs.viewlets.all (fun v => !(v.id == ph.id)) then
            { acc with compositeBar := acc.compositeBar.addComposite ⟨ph.id, ph.id, none, none⟩ }
          else acc) acc).compositeBar.entries := by
  induction l with
  | nil => intro acc h; exact h
  | cons a t ih =>
    intro acc h
    rw [List.foldl_cons]
    by_cases hc : vs.viewlets.all (fun v => !(v.id == a.id)) = true
    · rw [if_pos hc]
      exact ih _ (addComposite_entry_mem _ _ _ h)
    · rw [if_neg hc]
      exact ih _ h

theorem foldl_upc_mem_literal (vs : ViewletService) (l : List IPlaceholderComposite)
    (x : String) (hg : ∀ v ∈ vs.viewlets, ¬ v.id = x) :
    ∀ acc : ActivitybarPart, (∃ p ∈ l, p.id = x) →
      (∀ e ∈ acc.compositeBar.entries, ¬ e.id = x) →
      (⟨x, x, none, none⟩ : CompositeEntry) ∈ (l.foldl
        (fun acc ph =>
          if vs.viewlets.all (fun v => !(v.id == ph.id)) then
            { acc with compositeBar := acc.compositeBar.addComposite ⟨ph.id, ph.id, none, none⟩ }
          else acc) acc).compositeBar.entries := by
  induction l with
  | nil =>
    intro acc h _
    obtain ⟨p, hp, _⟩ := h
    exact absurd hp (List.not_mem_nil p)
  | cons a t ih =>
    intro acc hex habs
    rw [List.foldl_cons]
    by_cases hax : a.id = x
    · have hall : vs.viewlets.all (fun v => !(v.id == a.id)) = true :=
        List.all_eq_true.mpr (fun v hv => by simpa using (hax ▸ hg v hv))
      rw [if_pos hall]
      apply foldl_upc_entry_mem
      show (⟨x, x, none, none⟩ : CompositeEntry)
        ∈ (acc.compositeBar.addComposite ⟨a.id, a.id, none, none⟩).entries
      rw [hax]
      exact addComposite_mem_of_absent acc.compositeBar ⟨x, x, none, none⟩ habs
    · have htail : ∃ p ∈ t, p.id = x := by
        obtain ⟨p, hp, hpx⟩ := hex
        rcases List.mem_cons.mp hp with heq | hmem2
        · exact absurd (heq ▸ hpx) hax
        · exact ⟨p, hmem2, hpx⟩
      by_cases hc : vs.viewlets.all (fun v => !(v.id == a.id)) = true
      · rw [if_pos hc]
        apply ih _ htail
        exact addComposite_absent_preserved acc.compositeBar _ x (by simpa using hax) habs
      · rw [if_neg hc]
        exact ih _ htail habs

/-! Lemmas about the global activity badge. -/

theorem releaseGlobalBadge_badge_none (s : ActivitybarPart) (id : String) :
    getGlobalBadge (releaseGlobalBadge s id) id = none := by
  unfold getGlobalBadge releaseGlobalBadge setGlobalBadge
  induction s.globalActivityIdToActions with
  | nil => rfl
  | cons a t ih =>
    cases ha : (a.id == id) with
    | true =>
      simp only [List.map_cons, ha, if_pos]
      rw [List.find?_cons_of_pos _ (by simpa using ha)]
    | false =>
      simp only [List.map_cons, ha, if_neg, Bool.false_eq_true, not_false_eq_true]
      rw [List.find?_cons_of_neg _ (by simp [ha])]
      exact ih

theorem setGlobalBadge_apply_twice (s : ActivitybarPart) (id : String) :
    releaseGlobalBadge (releaseGlobalBadge s id) id = releaseGlobalBadge s id := by
  unfold releaseGlobalBadge setGlobalBadge
  simp only [List.map_map]
  congr 1
  apply List.map_congr_left
  intro a _
  cases ha : (a.id == id) with
  | true => simp [Function.comp, ha]
  | false => simp [Function.comp, ha]

/-! Wrapper lemmas at the level of the named operations. -/

theorem updatePlaceholderComposites_actions (vs : ViewletService) (s : ActivitybarPart) :
    (updatePlaceholderComposites vs s).compositeActions = s.compositeActions := by
  unfold updatePlaceholderComposites
  exact foldl_upc_actions vs s.placeholderComposites s

theorem updatePlaceholderComposites_placeholders (vs : ViewletService) (s : ActivitybarPart) :
    (updatePlaceholderComposites vs s).placeholderComposites = s.placeholderComposites := by
  unfold updatePlaceholderComposites
  exact foldl_upc_placeholders vs s.placeholderComposites s

theorem updateCompositebar_placeholders (vs : ViewletService) (s : ActivitybarPart) :
    (updateCompositebar vs s).placeholderComposites = s.placeholderComposites := by
  unfold updateCompositebar
  exact foldl_pv_placeholders vs vs.viewlets s

theorem option_map_revive (o : Option URI) : o.map URI.revive = o := by
  cases o <;> rfl

theorem parseShutdown_eq (vs : ViewletService) :
    parsePreviousState (shutdown vs)
      = vs.viewlets.map (fun w => IPlaceholderComposite.mk w.id w.iconUrl) := by
  unfold parsePreviousState shutdown
  rw [List.map_map]
  apply List.map_congr_left
  intro w _
  simp [Function.comp, option_map_revive]

theorem mapped_filter_head (l : List ViewletDescriptor) (v : ViewletDescriptor)
    (h : l.find? (fun w => w.id == v.id) = some v) :
    ((l.map (fun w => IPlaceholderComposite.mk w.id w.iconUrl)).filter
        (fun c => c.id == v.id)).head? = some ⟨v.id, v.iconUrl⟩ := by
  induction l with
  | nil => simp at h
  | cons a t ih =>
    cases ha : (a.id == v.id) with
    | true =>
      rw [List.find?_cons_of_pos _ (by simpa using ha)] at h
      injection h with h
      subst h
      simp [List.filter_cons, ha]
    | false =>
      rw [List.find?_cons_of_neg _ (by simp [ha])] at h
      simp only [List.map_cons, List.filter_cons]
      rw [show ((IPlaceholderComposite.mk a.id a.iconUrl).id == v.id) = false from ha]
      simpa using ih h

theorem mkActivitybarPart_empty_actions (gids : List String)
    (stored : Option (List IPlaceholderComposite)) (legacy : List String)
    (bar0 : CompositeBar) (vs : ViewletService) (hempty : vs.viewlets = []) :
    (mkActivitybarPart gids stored legacy bar0 vs).compositeActions = []
    ∧ (mkActivitybarPart gids stored legacy bar0 vs).placeholderComposites
        = loadedPlaceholders stored legacy := by
  unfold mkActivitybarPart
  have hucb : updateCompositebar vs (initialState gids stored legacy bar0)
      = initialState gids stored legacy bar0 := by
    unfold updateCompositebar
    rw [hempty]
    rfl
  rw [hucb, updatePlaceholderComposites_actions, updatePlaceholderComposites_placeholders]
  exact ⟨rfl, rfl⟩

/-! The claims. -/

/-- C1: for every composite id at most one control pair is in the map at any
observation point. getCompositeActions returns an existing pair unchanged
without touching the state; when it creates a pair, the map still holds at
most one entry for the id, the new pair is the one looked up afterwards, and a
later access returns that same pair without recreating it. -/
theorem claim_C1 (vs : ViewletService) (s : ActivitybarPart) (cid : String)
    (hcount : s.compositeActions.countP (fun e => e.1 == cid) ≤ 1) :
    (∀ p, lookupPair s cid = some p → getCompositeActions vs s cid = .ok (p, s))
    ∧ (∀ p s1, getCompositeActions vs s cid = .ok (p, s1) →
        s1.compositeActions.countP (fun e => e.1 == cid) ≤ 1
        ∧ lookupPair s1 cid = some p
        ∧ getCompositeActions vs s1 cid = .ok (p, s1)) := by
  constructor
  · intro p hp
    exact getCompositeActions_of_lookup_some vs s cid p hp
  · intro p s1 hok
    have hl := getCompositeActions_ok_lookup vs s cid p s1 hok
    refine ⟨?_, hl, getCompositeActions_of_lookup_some vs s1 cid p hl⟩
    have hf := getCompositeActions_ok_fields vs s cid p s1 hok
    rcases hf.2.2.2 with heq | heq
    · rw [heq]; exact hcount
    · rw [heq.2, List.countP_append]
      have h0 : s.compositeActions.countP (fun e => e.1 == cid) = 0 := by
        apply List.countP_eq_zero.mpr
        intro a ha
        simpa using lookupPair_eq_none_iff s cid |>.mp heq.1 a ha
      rw [h0]
      simp [List.countP_cons]

/-- Witness for C1: in the state where the pair for w was just created, the
map holds one entry, the lookup returns it, and a repeated access is the
identity. -/
theorem claim_C1_witness :
    stateW1.compositeActions.countP (fun e => e.1 == "w") ≤ 1
    ∧ lookupPair stateW1 "w" = some pairW
    ∧ getCompositeActions vsW stateW1 "w" = .ok (pairW, stateW1) :=
  (claim_C1 vsW emptyPart "w" (by decide)).2 pairW stateW1 rfl

/-- C5: when the target id is not a live composite, showActivity with no badge
fails with MissingBadge, and with a badge but an unknown global activity id it
fails with UnknownActivityId; the Except error carries no successor state, so
neither the Host nor any badge is mutated on these paths. -/
theorem claim_C5 (vs : ViewletService) (s : ActivitybarPart) (targetId : String)
    (badge : Option Badge) (clazz : Option String) (prio : Option Nat)
    (hnotlive : vs.getViewlet targetId = none) :
    (badge = none →
      showActivity vs s targetId badge clazz prio = .error ActivityError.MissingBadge)
    ∧ (∀ b, badge = some b →
        (∀ a ∈ s.globalActivityIdToActions, ¬ a.id = targetId) →
        showActivity vs s targetId badge clazz prio = .error ActivityError.UnknownActivityId) := by
  constructor
  · intro hb
    subst hb
    unfold showActivity
    rw [hnotlive]
    rfl
  · intro b hb hno
    subst hb
    unfold showActivity
    rw [hnotlive]
    unfold showGlobalActivity
    have hfind : s.globalActivityIdToActions.find? (fun a => a.id == targetId) = none :=
      List.find?_eq_none.mpr (fun a ha => by simpa using hno a ha)
    rw [hfind]

/-- Witness for C5: with no viewlet named nope and no such global activity,
the missing badge and the unknown id each fail as stated. -/
theorem claim_C5_witness :
    showActivity vsEmpty stateGlobalX "nope" none none none = .error ActivityError.MissingBadge
    ∧ showActivity vsEmpty stateGlobalX "nope" (some badgeFive) none none
        = .error ActivityError.UnknownActivityId :=
  ⟨(claim_C5 vsEmpty stateGlobalX "nope" none none none rfl).1 rfl,
   (claim_C5 vsEmpty stateGlobalX "nope" (some badgeFive) none none rfl).2
     badgeFive rfl (by decide)⟩

/-- C6: for a handle returned by a successful global showActivity call,
releasing once sets the badge of that activity to absent, and releasing again
is a no-op that leaves it absent. -/
theorem claim_C6 (vs : ViewletService) (s s1 : ActivitybarPart) (targetId : String)
    (b : Badge) (clazz : Option String) (prio : Option Nat)
    (hroute : vs.getViewlet targetId = none)
    (hok : showActivity vs s targetId (some b) clazz prio = .ok s1) :
    getGlobalBadge (releaseGlobalBadge s1 targetId) targetId = none
    ∧ releaseGlobalBadge (releaseGlobalBadge s1 targetId) targetId
        = releaseGlobalBadge s1 targetId :=
  ⟨releaseGlobalBadge_badge_none s1 targetId, setGlobalBadge_apply_twice s1 targetId⟩

/-- Witness for C6: after setting badge 5 on globalX, one release clears the
badge and a second release changes nothing. -/
theorem claim_C6_witness :
    getGlobalBadge (releaseGlobalBadge stateGlobalXSet "globalX") "globalX" = none
    ∧ releaseGlobalBadge (releaseGlobalBadge stateGlobalXSet "globalX") "globalX"
        = releaseGlobalBadge stateGlobalXSet "globalX" :=
  claim_C6 vsEmpty stateGlobalX stateGlobalXSet "globalX" badgeFive none none rfl rfl

/-- C7: getCompositeActions returns the existing pair; else builds a Live pair
from a live descriptor; else builds a Placeholder pair from the first recorded
placeholder; else fails with UnknownCompositeId. -/
theorem claim_C7 (vs : ViewletService) (s : ActivitybarPart) (cid : String) :
    (∀ p, lookupPair s cid = some p → getCompositeActions vs s cid = .ok (p, s))
    ∧ (lookupPair s cid = none → ∀ v, vs.getViewlet cid = some v →
        getCompositeActions vs s cid = .ok (ControlPair.live v,
          { s with compositeActions := s.compositeActions ++ [(cid, ControlPair.live v)] }))
    ∧ (lookupPair s cid = none → vs.getViewlet cid = none →
        ∀ ph, (s.placeholderComposites.filter (fun c => c.id == cid)).head? = some ph →
        getCompositeActions vs s cid = .ok (ControlPair.placeholder cid ph.iconUrl,
          { s with compositeActions :=
              s.compositeActions ++ [(cid, ControlPair.placeholder cid ph.iconUrl)] }))
    ∧ (lookupPair s cid = none → vs.getViewlet cid = none →
        (s.placeholderComposites.filter (fun c => c.id == cid)).head? = none →
        getCompositeActions vs s cid = .error CoordError.UnknownCompositeId) := by
  refine ⟨?_, ?_, ?_, ?_⟩
  · intro p hp
    exact getCompositeActions_of_lookup_some vs s cid p hp
  · intro hl v hv
    unfold getCompositeActions
    rw [hl, hv]
  · intro hl hv ph hph
    unfold getCompositeActions
    rw [hl, hv, hph]
  · intro hl hv hph
    unfold getCompositeActions
    rw [hl, hv, hph]

/-- Witness for C7: one concrete input per branch; a cached pair is returned
as is, a live pair is built for w, a placeholder pair with the cached icon is
built for x, and the unknown id zz fails. -/
theorem claim_C7_witness :
    getCompositeActions vsEmpty statePairP "p"
        = .ok (ControlPair.placeholder "p" none, statePairP)
    ∧ getCompositeActions vsW emptyPart "w" = .ok (pairW, stateW1)
    ∧ getCompositeActions vsEmpty stateX "x"
        = .ok (ControlPair.placeholder "x" (some iconU),
            { stateX with compositeActions := [("x", ControlPair.placeholder "x" (some iconU))] })
    ∧ getCompositeActions vsEmpty emptyPart "zz" = .error CoordError.UnknownCompositeId := by
  refine ⟨?_, ?_, ?_, ?_⟩
  · exact (claim_C7 vsEmpty statePairP "p").1 (ControlPair.placeholder "p" none) (by decide)
  · exact (claim_C7 vsW emptyPart "w").2.1 rfl viewletW (by decide)
  · exact (claim_C7 vsEmpty stateX "x").2.2.1 rfl rfl
      { id := "x", iconUrl := some iconU } (by decide)
  · exact (claim_C7 vsEmpty emptyPart "zz").2.2.2 rfl rfl rfl

/-- C10: when the target id names a live composite, showActivity delegates to
the badge primitive of the Host without validating the badge; in particular an
absent badge does not raise MissingBadge on this route. -/
theorem claim_C10 (vs : ViewletService) (s : ActivitybarPart) (targetId : String)
    (badge : Option Badge) (clazz : Option String) (prio : Option Nat)
    (v : ViewletDescriptor) (hlive : vs.getViewlet targetId = some v) :
    showActivity vs s targetId badge clazz prio
      = .ok { s with compositeBar := s.compositeBar.showActivity targetId badge clazz prio } := by
  unfold showActivity
  rw [hlive]

/-- Witness for C10: a call for the live composite w with no badge succeeds
and reaches the Host. -/
theorem claim_C10_witness :
    showActivity vsW emptyPart "w" none none none
      = .ok { emptyPart with
          compositeBar := emptyPart.compositeBar.showActivity "w" none none none } :=
  claim_C10 vsW emptyPart "w" none none none viewletW (by decide)

/-- Wrapper: after the reconciliation fold, a ghost placeholder id is gone
from both the map and the Host. -/
theorem removeNotExisting_ghost_absent (vs : ViewletService) (s : ActivitybarPart)
    (ph : IPlaceholderComposite) (hg : ∀ v ∈ vs.viewlets, ¬ v.id = ph.id)
    (hmem : ph ∈ s.placeholderComposites) :
    (∀ e ∈ (removeNotExistingPlaceholderComposites vs s).compositeActions, ¬ e.1 = ph.id)
    ∧ (∀ e ∈ (removeNotExistingPlaceholderComposites vs s).compositeBar.entries,
        ¬ e.id = ph.id) := by
  unfold removeNotExistingPlaceholderComposites
  exact foldl_rn_ghost_absent vs s.placeholderComposites ph hg s hmem

/-- Wrapper: updateCompositebar does not resurrect an id no viewlet has. -/
theorem updateCompositebar_absent (vs : ViewletService) (s : ActivitybarPart) (x : String)
    (hl : ∀ v ∈ vs.viewlets, ¬ v.id = x)
    (h1 : ∀ e ∈ s.compositeActions, ¬ e.1 = x)
    (h2 : ∀ e ∈ s.compositeBar.entries, ¬ e.id = x) :
    (∀ e ∈ (updateCompositebar vs s).compositeActions, ¬ e.1 = x)
    ∧ (∀ e ∈ (updateCompositebar vs s).compositeBar.entries, ¬ e.id = x) := by
  unfold updateCompositebar
  exact foldl_pv_absent vs vs.viewlets x hl s h1 h2

/-- Wrapper: updateCompositebar puts every registered viewlet into the Host
and gives it a control pair. -/
theorem updateCompositebar_self (vs : ViewletService) (s : ActivitybarPart)
    (v : ViewletDescriptor) (hv : v ∈ vs.viewlets) :
    (∃ e ∈ (updateCompositebar vs s).compositeBar.entries, e.id = v.id)
    ∧ (∃ e ∈ (updateCompositebar vs s).compositeActions, e.1 = v.id) := by
  unfold updateCompositebar
  exact foldl_pv_self vs vs.viewlets v hv s hv

/-- C2: after the extensions-ready reconciliation, every placeholder id
recorded at construction with no matching live descriptor is gone from both
the control-pair map and the Host, while every placeholder id that did
register is present in the Host and has a control pair. -/
theorem claim_C2 (vs : ViewletService) (s : ActivitybarPart) (ph : IPlaceholderComposite)
    (hmem : ph ∈ s.placeholderComposites) :
    ((∀ v ∈ vs.viewlets, ¬ v.id = ph.id) →
        barHasId (onDidRegisterExtensions vs s).compositeBar ph.id = false
        ∧ lookupPair (onDidRegisterExtensions vs s) ph.id = none)
    ∧ ((∃ v ∈ vs.viewlets, v.id = ph.id) →
        barHasId (onDidRegisterExtensions vs s).compositeBar ph.id = true
        ∧ hasPair (onDidRegisterExtensions vs s) ph.id = true) := by
  constructor
  · intro hg
    have habs := removeNotExisting_ghost_absent vs s ph hg hmem
    unfold onDidRegisterExtensions
    have hafter := updateCompositebar_absent vs _ ph.id hg habs.1 habs.2
    exact ⟨(barHasId_eq_false_iff _ _).mpr hafter.2,
      (lookupPair_eq_none_iff _ _).mpr hafter.1⟩
  · intro hex
    obtain ⟨v, hv, hvid⟩ := hex
    unfold onDidRegisterExtensions
    have hres := updateCompositebar_self vs (removeNotExistingPlaceholderComposites vs s) v hv
    constructor
    · apply (barHasId_eq_true_iff _ _).mpr
      obtain ⟨e, he, hex2⟩ := hres.1
      exact ⟨e, he, hvid ▸ hex2⟩
    · apply (hasPair_eq_true_iff _ _).mpr
      obtain ⟨e, he, hex2⟩ := hres.2
      exact ⟨e, he, hvid ▸ hex2⟩

/-- Witness for C2: placeholders a and b recorded, only a registered when the
signal fires; afterwards the Host and map hold a and not b. -/
theorem claim_C2_witness :
    (barHasId (onDidRegisterExtensions vsOnlyA stateAB).compositeBar "b" = false
     ∧ lookupPair (onDidRegisterExtensions vsOnlyA stateAB) "b" = none)
    ∧ (barHasId (onDidRegisterExtensions vsOnlyA stateAB).compositeBar "a" = true
     ∧ hasPair (onDidRegisterExtensions vsOnlyA stateAB) "a" = true) :=
  ⟨(claim_C2 vsOnlyA stateAB ⟨"b", none⟩ (by decide)).1 (by decide),
   (claim_C2 vsOnlyA stateAB ⟨"a", none⟩ (by decide)).2 ⟨viewletA, by decide, rfl⟩⟩

/-- Counterexample for C3: viewlet d matches a recorded placeholder and is not
pinned in the Host, yet after updateCompositebar it is pinned, because the
active-viewlet branch pins it; so the claim that no pin call is made on this
path for a placeholder-matching composite fails. -/
theorem claim_C3_counterexample :
    stateD.placeholderComposites.any (fun c => c.id == "d") = true
    ∧ stateD.compositeBar.isPinned "d" = false
    ∧ (updateCompositebar vsActiveD stateD).compositeBar.isPinned "d" = true := by decide

/-- C3 amended: a composite with no recorded placeholder id is pinned by
updateCompositebar; a composite with a recorded placeholder id that is not the
active viewlet gets no pin call on this path, so its pin state in the Host is
unchanged (the active viewlet is pinned regardless). -/
theorem claim_C3_amended (vs : ViewletService) (s : ActivitybarPart) (x : String) :
    ((∀ c ∈ s.placeholderComposites, ¬ c.id = x) → (∃ v ∈ vs.viewlets, v.id = x) →
        (updateCompositebar vs s).compositeBar.isPinned x = true)
    ∧ ((∃ c ∈ s.placeholderComposites, c.id = x) → ¬ vs.activeViewletId = some x →
        (updateCompositebar vs s).compositeBar.isPinned x = s.compositeBar.isPinned x) := by
  constructor
  · intro hnp hex
    unfold updateCompositebar
    exact foldl_pv_pin_default vs vs.viewlets x s hnp hex
  · intro hph hact
    unfold updateCompositebar
    exact foldl_pv_isPinned_unchanged vs vs.viewlets x hact s hph

/-- Witness for C3: the fresh viewlet w ends pinned; the placeholder-matching,
inactive viewlet d keeps the pin state the Host already had. -/
theorem claim_C3_witness :
    (updateCompositebar vsW emptyPart).compositeBar.isPinned "w" = true
    ∧ (updateCompositebar vsD stateD).compositeBar.isPinned "d"
        = stateD.compositeBar.isPinned "d" :=
  ⟨(claim_C3_amended vsW emptyPart "w").1 (by decide) ⟨viewletW, by decide, rfl⟩,
   (claim_C3_amended vsD stateD "d").2 ⟨⟨"d", none⟩, by decide, rfl⟩ (by decide)⟩

/-- C4: shutdown serializes the live composites as the placeholder list;
constructing a new instance from that blob, before any registration, yields a
Placeholder control pair whose icon reference equals the serialized one. -/
theorem claim_C4 (gids : List String) (legacy : List String) (bar0 : CompositeBar)
    (vs vsNew : ViewletService) (v : ViewletDescriptor)
    (hfirst : vs.viewlets.find? (fun w => w.id == v.id) = some v)
    (hempty : vsNew.viewlets = []) :
    ∃ s1, getCompositeActions vsNew
        (mkActivitybarPart gids (some (shutdown vs)) legacy bar0 vsNew) v.id
      = .ok (ControlPair.placeholder v.id v.iconUrl, s1) := by
  obtain ⟨hact, hph⟩ :=
    mkActivitybarPart_empty_actions gids (some (shutdown vs)) legacy bar0 vsNew hempty
  set M := mkActivitybarPart gids (some (shutdown vs)) legacy bar0 vsNew with hM
  have hlook : lookupPair M v.id = none := by
    unfold lookupPair
    rw [hact]
    rfl
  have hview : vsNew.getViewlet v.id = none := by
    unfold ViewletService.getViewlet
    rw [hempty]
    rfl
  have hph2 : M.placeholderComposites = parsePreviousState (shutdown vs) := by
    rw [hph]
    rfl
  have hhead : (M.placeholderComposites.filter (fun c => c.id == v.id)).head?
      = some ⟨v.id, v.iconUrl⟩ := by
    rw [hph2, parseShutdown_eq]
    exact mapped_filter_head vs.viewlets v hfirst
  refine ⟨{ M with compositeActions :=
      M.compositeActions ++ [(v.id, ControlPair.placeholder v.id v.iconUrl)] }, ?_⟩
  unfold getCompositeActions
  rw [hlook, hview, hhead]

/-- Witness for C4: serializing the git viewlet with icon u1 and restarting
with no registrations yields a placeholder pair for git carrying icon u1. -/
theorem claim_C4_witness :
    ∃ s1, getCompositeActions vsEmpty
        (mkActivitybarPart [] (some (shutdown vsGit)) [] emptyBar vsEmpty) "git"
      = .ok (ControlPair.placeholder "git" (some iconU1), s1) :=
  claim_C4 [] [] emptyBar vsGit vsEmpty viewletGit (by decide) rfl

/-- Counterexample for C8: the Host entry seeded for the ghost placeholder x
is the literal with the id as its name and no icon; an entry carrying the
cached icon of the placeholder is not in the Host, so the claim that the entry
uses the cached name and icon of the placeholder fails at this input. -/
theorem claim_C8_counterexample :
    stateX.placeholderComposites = [{ id := "x", iconUrl := some iconU }]
    ∧ (updatePlaceholderComposites vsEmpty stateX).compositeBar.entries
        = [{ id := "x", name := "x", order := none, iconUrl := none }]
    ∧ ¬ ({ id := "x", name := "x", order := none, iconUrl := some iconU } : CompositeEntry)
        ∈ (updatePlaceholderComposites vsEmpty stateX).compositeBar.entries := by decide

/-- C8 amended: seedPlaceholders adds, for every recorded placeholder id with
no matching live descriptor, a Host entry whose name is the placeholder id
itself with no order and no icon; the cached icon is not part of the Host
entry and surfaces only through the lazily built placeholder control pair. -/
theorem claim_C8_amended (vs : ViewletService) (s : ActivitybarPart)
    (ph : IPlaceholderComposite) (hmem : ph ∈ s.placeholderComposites)
    (hghost : ∀ v ∈ vs.viewlets, ¬ v.id = ph.id) :
    barHasId (updatePlaceholderComposites vs s).compositeBar ph.id = true
    ∧ ((∀ e ∈ s.compositeBar.entries, ¬ e.id = ph.id) →
        (⟨ph.id, ph.id, none, none⟩ : CompositeEntry)
          ∈ (updatePlaceholderComposites vs s).compositeBar.entries) := by
  constructor
  · by_cases hpres : ∃ e ∈ s.compositeBar.entries, e.id = ph.id
    · apply (barHasId_eq_true_iff _ _).mpr
      obtain ⟨e, he, hex⟩ := hpres
      refine ⟨e, ?_, hex⟩
      unfold updatePlaceholderComposites
      exact foldl_upc_entry_mem vs s.placeholderComposites e s he
    · push_neg at hpres
      apply (barHasId_eq_true_iff _ _).mpr
      refine ⟨⟨ph.id, ph.id, none, none⟩, ?_, rfl⟩
      unfold updatePlaceholderComposites
      exact foldl_upc_mem_literal vs s.placeholderComposites ph.id hghost s ⟨ph, hmem, rfl⟩ hpres
  · intro habs
    unfold updatePlaceholderComposites
    exact foldl_upc_mem_literal vs s.placeholderComposites ph.id hghost s ⟨ph, hmem, rfl⟩ habs

/-- Witness for C8: seeding from the placeholder x with a cached icon puts the
bare entry for x into the empty Host. -/
theorem claim_C8_witness :
    barHasId (updatePlaceholderComposites vsEmpty stateX).compositeBar "x" = true
    ∧ (⟨"x", "x", none, none⟩ : CompositeEntry)
        ∈ (updatePlaceholderComposites vsEmpty stateX).compositeBar.entries := by
  have h := claim_C8_amended vsEmpty stateX ⟨"x", some iconU⟩ (by decide) (by decide)
  exact ⟨h.1, h.2 (by decide)⟩

/-- Counterexample for C9: b registered before a, then a; both are pinned, the
registry lists a before b while the Host entries list b before a; getPinned
returns a then b, not the Host order b then a. -/
theorem claim_C9_counterexample :
    getPinned vsAB9 state9 = ["a", "b"]
    ∧ state9.compositeBar.entries.map (fun e => e.id) = ["b", "a"]
    ∧ getPinnedHostOrder vsAB9 state9 = ["b", "a"]
    ∧ ¬ getPinned vsAB9 state9 = getPinnedHostOrder vsAB9 state9 := by decide

/-- C9 amended: getPinned returns exactly the live composite ids the Host
currently marks pinned, in Registration Source order (a sublist of the
registered ids in registry order, not Host order); it is a pure query. -/
theorem claim_C9_amended (vs : ViewletService) (s : ActivitybarPart) :
    List.Sublist (getPinned vs s) (vs.viewlets.map (fun v => v.id))
    ∧ ∀ x, x ∈ getPinned vs s ↔
        ((∃ v ∈ vs.viewlets, v.id = x) ∧ s.compositeBar.isPinned x = true) := by
  constructor
  · exact List.filter_sublist _
  · intro x
    unfold getPinned
    rw [List.mem_filter]
    simp [List.mem_map]
